import Mathlib

/-!
Verification of the logging-webhook worker (`src/index.ts`).

The worker is a single `fetch` handler that checks the HTTP method and
content type, optionally verifies an HMAC signature over the raw body,
parses and validates the JSON payload, computes a deduplication key, and
forwards one row to a downstream sink after exchanging credentials for a
bearer token.

Embedding conventions:
* JavaScript strings are sequences of UTF-16 code units, modelled as
  `List Nat`; raw request bodies are byte sequences, also `List Nat`.
* JSON values are the inductive `Json`; a possibly-`undefined` JavaScript
  value is `JsVal`.
* Host-runtime primitives that are not code of this repository
  (`JSON.parse`, `JSON.stringify`, `crypto.subtle`'s HMAC-SHA256 and
  SHA-256) are abstracted as fields of `Host`; every theorem holds for
  every choice of these functions.  The hex encoding, the constant-time
  comparison, JavaScript truthiness and the `in` operator semantics are
  embedded concretely because the handler's logic depends on them.
* The two outbound HTTP calls are modelled by an `Upstream` record giving
  the responses the collaborators would return; the handler model records
  which calls were actually made.
-/

namespace McpLog

/-- A JavaScript string: its sequence of UTF-16 code units. -/
abbrev JsStr := List Nat

/-- A raw byte sequence (the request body, digests). -/
abbrev Bytes := List Nat

/-- Code units of an ASCII string literal (used only for ASCII constants,
where code units coincide with Unicode code points). -/
def jstr (s : String) : JsStr := s.data.map Char.toNat

/-- JSON values as produced by `JSON.parse`. Numbers are modelled as
integers: the handler never computes with numbers, it only tests
truthiness and passes them through, and every numeric literal relevant to
the claims is integral. -/
inductive Json where
  | null
  | bool (b : Bool)
  | num (n : Int)
  | str (s : JsStr)
  | arr (elems : List Json)
  | obj (fields : List (JsStr × Json))

/-- A JavaScript value that may be `undefined` (e.g. the result of a
property access). -/
inductive JsVal where
  | undefined
  | val (j : Json)

/-- Own-property lookup on an object's field list.  `JSON.parse` keeps the
last duplicate key, so the field list of a parsed object has unique keys
and first-match lookup agrees with JavaScript. -/
def lookupKey : List (JsStr × Json) → JsStr → JsVal
  | [], _ => .undefined
  | (k', v) :: rest, k => if k' = k then .val v else lookupKey rest k

/-- Optional-chaining property access `v?.k` followed by the subsequent
`?.` guard: `undefined`/`null` short-circuit to `undefined`; objects look
the key up; primitives and arrays yield `undefined` for the keys the
handler reads (`extra`, `request_id`), which are not built-in properties. -/
def jsGetOpt : JsVal → JsStr → JsVal
  | .undefined, _ => .undefined
  | .val .null, _ => .undefined
  | .val (.obj fields), k => lookupKey fields k
  | .val _, _ => .undefined

/-- Plain property access `v.k`: a TypeError on `null` (modelled as
`Except.error`), key lookup on objects, `undefined` on other values for
the non-built-in keys the handler reads. -/
def jsDot : Json → JsStr → Except Unit JsVal
  | .null, _ => .error ()
  | .obj fields, k => .ok (lookupKey fields k)
  | _, _ => .ok .undefined

/-- JavaScript truthiness of a value.  (`NaN`, absent from parsed JSON, is
not representable; non-integral numbers are truthy in JavaScript exactly
like the nonzero integers modelled here.) -/
def jsTruthy : JsVal → Bool
  | .undefined => false
  | .val .null => false
  | .val (.bool b) => b
  | .val (.num n) => !(n == 0)
  | .val (.str s) => !s.isEmpty
  | .val (.arr _) => true
  | .val (.obj _) => true

/-- The JavaScript `key in payload` test: own/inherited property lookup on
objects (none of the seven required keys is an `Object.prototype`
property), `false` on arrays (none of them is an array index or an
`Array.prototype` property), and a TypeError on primitives and `null`. -/
def jsInOp (k : JsStr) : Json → Except Unit Bool
  | .obj fields => .ok (fields.any (fun p => p.1 == k))
  | .arr _ => .ok false
  | _ => .error ()

/-- Code unit of the lowercase hex digit of `n < 16`
(`n.toString(16)` digit). -/
def hexDigit (n : Nat) : Nat := if n < 10 then 48 + n else 87 + n

/-- Fuel-driven rendering of `n.toString(16)` for a nonnegative integer:
most significant digit first, lowercase.  Fuel `n + 1` always suffices. -/
def hexStrGo : Nat → Nat → List Nat
  | 0, _ => []
  | fuel + 1, n =>
    if n < 16 then [hexDigit n] else hexStrGo fuel (n / 16) ++ [hexDigit (n % 16)]

/-- `n.toString(16)` for a nonnegative integer. -/
def hexStr (n : Nat) : List Nat := hexStrGo (n + 1) n

/-- `b.toString(16).padStart(2, '0')` (source line 62/67). -/
def byteToHex (b : Nat) : List Nat :=
  let s := hexStr b
  List.replicate (2 - s.length) 48 ++ s

/-- `[...bytes].map(b => b.toString(16).padStart(2, '0')).join('')`. -/
def bytesToHex (bs : Bytes) : JsStr := (bs.map byteToHex).flatten

/-- Fuel-driven rendering of `n.toString()` in decimal (used in the
`BigQuery HTTP ${status}` error message). -/
def decStrGo : Nat → Nat → List Nat
  | 0, _ => []
  | fuel + 1, n =>
    if n < 10 then [48 + n] else decStrGo fuel (n / 10) ++ [48 + n % 10]

/-- `n.toString()` in decimal for a nonnegative integer. -/
def natToStr (n : Nat) : JsStr := decStrGo (n + 1) n

/-- `safeCompare` (source lines 70–75): reject on unequal lengths, then
OR-accumulate the XOR of the code units at every position and accept
exactly when the accumulator is zero. -/
def safeCompare (a b : JsStr) : Bool :=
  if a.length ≠ b.length then false
  else ((a.zip b).foldl (fun r p => r ||| (p.1 ^^^ p.2)) 0) == 0

/-- ASCII lowercasing of one code unit (`toLowerCase` restricted to the
ASCII range, which is all the handler's comparison needs). -/
def toLowerAscii (c : Nat) : Nat := if 65 ≤ c ∧ c ≤ 90 then c + 32 else c

/-- `s.toLowerCase()` on the ASCII range. -/
def jsToLower (s : JsStr) : JsStr := s.map toLowerAscii

/-- `needle` is a prefix of `hay`. -/
def prefixCheck : JsStr → JsStr → Bool
  | [], _ => true
  | _ :: _, [] => false
  | x :: xs, y :: ys => x == y && prefixCheck xs ys

/-- `hay.includes(needle)`: some suffix of `hay` starts with `needle`. -/
def hasSub (hay needle : JsStr) : Bool :=
  prefixCheck needle hay ||
    (match hay with
     | [] => false
     | _ :: t => hasSub t needle)

/-- The seven required top-level keys, in the order of source line 41. -/
def requiredKeys : List JsStr :=
  [jstr "schema_version", jstr "source", jstr "timestamp", jstr "level",
   jstr "logger", jstr "message", jstr "extra"]

/-- The validation loop of source lines 42–44: test `key in payload` for
each required key in order; report the first missing key, propagate the
TypeError thrown by `in` on non-object payloads. -/
def firstMissingKey (payload : Json) : List JsStr → Except Unit (Option JsStr)
  | [] => .ok none
  | k :: ks =>
    match jsInOp k payload with
    | .error () => .error ()
    | .ok true => firstMissingKey payload ks
    | .ok false => .ok (some k)

/-- Host-runtime primitives used by the worker but external to its code:
`TextDecoder` + `JSON.parse` composed over the raw bytes (`none` models a
parse exception), `JSON.stringify`, and WebCrypto's HMAC-SHA256 and
SHA-256 digests as byte sequences. -/
structure Host where
  parse : Bytes → Option Json
  stringify : Json → JsStr
  hmac : JsStr → Bytes → Bytes
  sha256 : Bytes → Bytes

/-- The configuration the handler reads.  Credential material
(`BIGQUERY_CREDS_JSON` / `GCP_CLIENT_EMAIL` / `GCP_PRIVATE_KEY`) only
determines whether the token step throws before its HTTP call; that
outcome is carried by `Upstream.credsError`. -/
structure Env where
  secret : Option JsStr

/-- Responses of the two collaborators, plus the outcome of credential
resolution (lines 110–144: `some msg` models the `missing GCP
credentials` / `invalid BIGQUERY_CREDS_JSON` / `invalid PEM` throws, which
happen before the token endpoint is contacted).  `sinkBody = none` models
a sink response whose body is not JSON (`resp.json()` throws). -/
structure Upstream where
  credsError : Option JsStr
  tokenStatus : Nat
  sinkStatus : Nat
  sinkText : JsStr
  sinkBody : Option Json

/-- `Response.ok` of the Fetch API: status in 200–299. -/
def httpOk (status : Nat) : Bool := 200 ≤ status && status ≤ 299

/-- The `{ ok, error? }` result of `insertIntoBigQuery`. -/
structure InsertRes where
  ok : Bool
  error : Option JsStr

/-- The single-row request sent to the sink:
`{ rows: [{ json: row, insertId }] }`. -/
structure SinkReq where
  row : Json
  insertId : Json

/-- Observable outcome of one `insertIntoBigQuery` invocation: its result
and which outbound calls were made, with the sink request when the sink
was contacted. -/
structure InsertCall where
  res : InsertRes
  tokenCalled : Bool
  sinkCalled : Bool
  request : Option SinkReq

/-- `insertIntoBigQuery` (source lines 77–107) composed with
`getServiceAccountAccessToken` (lines 109–157).  Credential-resolution
failures and a non-2xx token response throw inside the `try`, are caught
at line 102 and become `{ ok: false, error: e.message }`; the sink call is
then never made.  With a token in hand, a non-2xx sink response is
rejected with the `BigQuery HTTP ${status}: ${text}` message; a 2xx
response is rejected when `data.insertErrors` is truthy (with the
stringified errors as the message) and accepted otherwise. -/
def insertIntoBigQuery (H : Host) (up : Upstream) (row : Json) (insertId : Json) :
    InsertCall :=
  match up.credsError with
  | some m => ⟨⟨false, some m⟩, false, false, none⟩
  | none =>
    if httpOk up.tokenStatus then
      let req := some (SinkReq.mk row insertId)
      if httpOk up.sinkStatus then
        match up.sinkBody with
        | none => ⟨⟨false, some (jstr "SyntaxError")⟩, true, true, req⟩
        | some body =>
          match jsDot body (jstr "insertErrors") with
          | .error () => ⟨⟨false, some (jstr "TypeError")⟩, true, true, req⟩
          | .ok ie =>
            if jsTruthy ie then
              match ie with
              | .val j => ⟨⟨false, some (H.stringify j)⟩, true, true, req⟩
              | .undefined => ⟨⟨false, some []⟩, true, true, req⟩
            else ⟨⟨true, none⟩, true, true, req⟩
      else
        ⟨⟨false, some (jstr "BigQuery HTTP " ++ natToStr up.sinkStatus ++
            jstr ": " ++ up.sinkText)⟩, true, true, req⟩
    else ⟨⟨false, some (jstr "token exchange failed")⟩, true, false, none⟩

/-- The pipeline stages of one request, for order-of-execution claims. -/
inductive Stage where
  | methodCheck
  | ctypeCheck
  | authCheck
  | parseValidate
  | dedupKeyStage
  | tokenCall
  | sinkCall
deriving DecidableEq, Repr

/-- The handler's observable outcome: an HTTP response, or an exception
escaping the `fetch` handler (the worker errors out; no response is
produced by this code). -/
inductive HOut where
  | resp (status : Nat) (body : JsStr)
  | thrown (msg : JsStr)
deriving DecidableEq, Repr

/-- One run of the handler: its outcome, the stages it executed in order,
and the request it sent to the sink, if any. -/
structure RunResult where
  out : HOut
  trace : List Stage
  sinkRequest : Option SinkReq

/-- The inbound HTTP request as the handler reads it. -/
structure Req where
  method : JsStr
  contentType : Option JsStr
  xSignature : Option JsStr
  rawBody : Bytes

/-- `if (env.WEBHOOK_SECRET)` (line 26): JavaScript string truthiness, so
an empty configured secret disables authentication. -/
def secretConfigured (env : Env) : Bool :=
  match env.secret with
  | some s => !s.isEmpty
  | none => false

/-- `payload?.extra?.request_id` (line 46). -/
def requestIdVal (payload : Json) : JsVal :=
  jsGetOpt (jsGetOpt (.val payload) (jstr "extra")) (jstr "request_id")

/-- The deduplication key of line 46:
`payload?.extra?.request_id || (await sha256Hex(rawBody))` — the
`request_id` value verbatim when truthy, else the lowercase SHA-256 hex of
the raw body. -/
def dedupKey (H : Host) (payload : Json) (rawBody : Bytes) : Json :=
  match requestIdVal payload with
  | .val j => if jsTruthy (.val j) then j else .str (bytesToHex (H.sha256 rawBody))
  | .undefined => .str (bytesToHex (H.sha256 rawBody))

/-- The 502 body of lines 49–50:
`insertResult.error ? 'Upstream Error: ' + error : 'Upstream Error'`
(an absent or empty `error` is falsy). -/
def upstreamMsg (r : InsertRes) : JsStr :=
  match r.error with
  | some e => if e.isEmpty then jstr "Upstream Error" else jstr "Upstream Error: " ++ e
  | none => jstr "Upstream Error"

/-- Lines 34–53 of the handler: parse, validate the seven required keys,
compute the deduplication key, forward to the sink, and map the insert
result to 200/502.  `pre` is the stage trace accumulated by the earlier
checks. -/
def handlerAfterAuth (H : Host) (up : Upstream) (req : Req) (pre : List Stage) :
    RunResult :=
  match H.parse req.rawBody with
  | none => ⟨.resp 400 (jstr "Bad Request"), pre ++ [.parseValidate], none⟩
  | some payload =>
    match firstMissingKey payload requiredKeys with
    | .error () => ⟨.thrown (jstr "TypeError"), pre ++ [.parseValidate], none⟩
    | .ok (some _) => ⟨.resp 400 (jstr "Bad Request"), pre ++ [.parseValidate], none⟩
    | .ok none =>
      let insertId := dedupKey H payload req.rawBody
      let call := insertIntoBigQuery H up payload insertId
      let tr := pre ++ [.parseValidate, .dedupKeyStage] ++
        (if call.tokenCalled then [.tokenCall] else []) ++
        (if call.sinkCalled then [.sinkCall] else [])
      if call.res.ok then ⟨.resp 200 (jstr "OK"), tr, call.request⟩
      else ⟨.resp 502 (upstreamMsg call.res), tr, call.request⟩

/-- The `fetch` handler (source lines 15–54): method check, content-type
check, optional signature check, then `handlerAfterAuth`. -/
def handler (H : Host) (env : Env) (up : Upstream) (req : Req) : RunResult :=
  if req.method ≠ jstr "POST" then
    ⟨.resp 405 (jstr "Method Not Allowed"), [.methodCheck], none⟩
  else if !hasSub (jsToLower (req.contentType.getD [])) (jstr "application/json") then
    ⟨.resp 415 (jstr "Unsupported Media Type"), [.methodCheck, .ctypeCheck], none⟩
  else if secretConfigured env then
    let given := req.xSignature.getD []
    let expected :=
      jstr "sha256=" ++ bytesToHex (H.hmac (env.secret.getD []) req.rawBody)
    if !safeCompare given expected then
      ⟨.resp 401 (jstr "Unauthorized"), [.methodCheck, .ctypeCheck, .authCheck], none⟩
    else handlerAfterAuth H up req [.methodCheck, .ctypeCheck, .authCheck]
  else handlerAfterAuth H up req [.methodCheck, .ctypeCheck]

/-- Whether the optional signature check passes for this request (the
handler's line 26–32 condition). -/
def authPasses (H : Host) (env : Env) (req : Req) : Bool :=
  if secretConfigured env then
    safeCompare (req.xSignature.getD [])
      (jstr "sha256=" ++ bytesToHex (H.hmac (env.secret.getD []) req.rawBody))
  else true

/-- Status of an outcome (`none` when the handler threw). -/
def statusOf : HOut → Option Nat
  | .resp s _ => some s
  | .thrown _ => none

/-- Response body of an outcome (the exception message when thrown). -/
def bodyOf : HOut → JsStr
  | .resp _ b => b
  | .thrown m => m

/-- Spec-side acceptance condition for a 2xx sink response body: the
`insertErrors` read does not throw and yields a non-truthy value. -/
def insertErrorsClear (j : Json) : Bool :=
  match jsDot j (jstr "insertErrors") with
  | .ok v => !jsTruthy v
  | .error () => false

/- Closed-instance data used to evaluate the model on concrete inputs. -/

/-- A well-formed event payload whose `extra.request_id` is the number
`1`: truthy, but not a string. -/
def payloadNumId : Json :=
  .obj [(jstr "schema_version", .num 1), (jstr "source", .str (jstr "svc")),
        (jstr "timestamp", .str (jstr "2025-01-01T00:00:00Z")),
        (jstr "level", .str (jstr "INFO")), (jstr "logger", .str (jstr "app")),
        (jstr "message", .str (jstr "hello")),
        (jstr "extra", .obj [(jstr "request_id", .num 1)])]

/-- A well-formed event payload with an empty `extra` object. -/
def payloadNoId : Json :=
  .obj [(jstr "schema_version", .num 1), (jstr "source", .str (jstr "svc")),
        (jstr "timestamp", .str (jstr "2025-01-01T00:00:00Z")),
        (jstr "level", .str (jstr "INFO")), (jstr "logger", .str (jstr "app")),
        (jstr "message", .str (jstr "hello")),
        (jstr "extra", .obj [])]

/-- Fields of an event payload missing the `message` key (the other six
present). -/
def fieldsMissingMsg : List (JsStr × Json) :=
  [(jstr "schema_version", .num 1), (jstr "source", .str (jstr "svc")),
   (jstr "timestamp", .str (jstr "2025-01-01T00:00:00Z")),
   (jstr "level", .str (jstr "INFO")), (jstr "logger", .str (jstr "app")),
   (jstr "extra", .obj [])]

/-- An event payload missing the `message` key (the other six present). -/
def payloadMissingMsg : Json := .obj fieldsMissingMsg

/-- A host instance whose parser yields `payloadNumId`. -/
def hostNumId : Host := ⟨fun _ => some payloadNumId, fun _ => [], fun _ _ => [], fun _ => []⟩

/-- A host instance whose parser yields `payloadNoId`. -/
def hostNoId : Host := ⟨fun _ => some payloadNoId, fun _ => [], fun _ _ => [], fun _ => []⟩

/-- A host instance whose parser yields `payloadNoId` and whose HMAC
digest is the single byte `0xab` (hex `ab`). -/
def hostHmacAb : Host :=
  ⟨fun _ => some payloadNoId, fun _ => [], fun _ _ => [171], fun _ => []⟩

/-- A host instance whose parser yields `payloadMissingMsg`. -/
def hostMissingMsg : Host :=
  ⟨fun _ => some payloadMissingMsg, fun _ => [], fun _ _ => [], fun _ => []⟩

/-- A host instance whose parser yields the scalar `5` (the parse of the
body `5`). -/
def hostScalar : Host := ⟨fun _ => some (.num 5), fun _ => [], fun _ _ => [], fun _ => []⟩

/-- Collaborators all succeed: credentials resolve, token endpoint and
sink both answer 200, the sink body is `{}` (no `insertErrors`). -/
def upAllOk : Upstream := ⟨none, 200, 200, [], some (.obj [])⟩

/-- Collaborators: token exchange answers 500. -/
def upTokenFail : Upstream := ⟨none, 500, 200, [], some (.obj [])⟩

/-- Collaborators: sink answers 200 with `insertErrors` present but an
empty array. -/
def upEmptyIE : Upstream :=
  ⟨none, 200, 200, [], some (.obj [(jstr "insertErrors", .arr [])])⟩

/-- No webhook secret configured. -/
def envNoSecret : Env := ⟨none⟩

/-- Webhook secret `k` configured. -/
def envSecretK : Env := ⟨some (jstr "k")⟩

/-- A plain valid POST request, no signature header. -/
def reqPlain : Req := ⟨jstr "POST", some (jstr "application/json"), none, jstr "body-bytes"⟩

/-- The same request with different body bytes. -/
def reqPlain2 : Req := ⟨jstr "POST", some (jstr "application/json"), none, jstr "other-bytes"⟩

/-- A POST request with `Content-Type: text/plain`. -/
def reqTextPlain : Req := ⟨jstr "POST", some (jstr "text/plain"), none, jstr "x"⟩

/-- A POST request whose body is the scalar JSON text `5`. -/
def reqScalar : Req := ⟨jstr "POST", some (jstr "application/json"), none, jstr "5"⟩

/-- A POST request carrying the signature header `sha256=ab` (the correct
signature under `hostHmacAb`). -/
def reqSigLower : Req :=
  ⟨jstr "POST", some (jstr "application/json"), some (jstr "sha256=ab"), jstr "body-bytes"⟩

/-- A POST request carrying the signature header `sha256=AB`: the correct
digest, hex-encoded with uppercase digits. -/
def reqSigUpper : Req :=
  ⟨jstr "POST", some (jstr "application/json"), some (jstr "sha256=AB"), jstr "body-bytes"⟩

/- Helper lemmas. -/

lemma lor_eq_zero (x y : Nat) : x ||| y = 0 ↔ x = 0 ∧ y = 0 := by
  constructor
  · intro h
    constructor
    · apply Nat.eq_of_testBit_eq
      intro i
      have hb := congrArg (fun n => Nat.testBit n i) h
      simp only [Nat.testBit_or, Nat.zero_testBit] at hb
      simp only [Bool.or_eq_false_iff] at hb
      simp [hb.1]
    · apply Nat.eq_of_testBit_eq
      intro i
      have hb := congrArg (fun n => Nat.testBit n i) h
      simp only [Nat.testBit_or, Nat.zero_testBit] at hb
      simp only [Bool.or_eq_false_iff] at hb
      simp [hb.2]
  · rintro ⟨rfl, rfl⟩
    rfl

lemma foldl_or_eq_zero (l : List (Nat × Nat)) (acc : Nat) :
    (l.foldl (fun r p => r ||| (p.1 ^^^ p.2)) acc = 0) ↔
      (acc = 0 ∧ ∀ p ∈ l, p.1 = p.2) := by
  induction l generalizing acc with
  | nil => simp
  | cons hd tl ih =>
    simp only [List.foldl_cons, ih, lor_eq_zero, Nat.xor_eq_zero, List.mem_cons]
    constructor
    · rintro ⟨⟨h1, h2⟩, h3⟩
      exact ⟨h1, fun p hp => hp.elim (fun e => e ▸ h2) (h3 p)⟩
    · rintro ⟨h1, h2⟩
      exact ⟨⟨h1, h2 hd (.inl rfl)⟩, fun p hp => h2 p (.inr hp)⟩

lemma zip_all_eq_iff (a : JsStr) : ∀ b : JsStr, a.length = b.length →
    ((∀ p ∈ a.zip b, p.1 = p.2) ↔ a = b) := by
  induction a with
  | nil =>
    intro b hlen
    cases b with
    | nil => simp
    | cons y ys => simp at hlen
  | cons x xs ih =>
    intro b hlen
    cases b with
    | nil => simp at hlen
    | cons y ys =>
      simp only [List.length_cons, Nat.succ.injEq] at hlen
      simp only [List.zip_cons_cons, List.mem_cons, List.cons.injEq]
      constructor
      · intro h
        refine ⟨h (x, y) (.inl rfl), ?_⟩
        exact (ih ys hlen).1 (fun p hp => h p (.inr hp))
      · rintro ⟨rfl, rfl⟩
        intro p hp
        rcases hp with h | h
        · rw [h]
        · exact (ih xs hlen).2 rfl p h

lemma safeCompare_iff (a b : JsStr) : safeCompare a b = true ↔ a = b := by
  unfold safeCompare
  by_cases hlen : a.length = b.length
  · simp only [hlen, ne_eq, not_true_eq_false, if_false, beq_iff_eq,
      foldl_or_eq_zero, true_and]
    exact (zip_all_eq_iff a b hlen).trans (by constructor <;> (intro h; exact h))
  · simp only [ne_eq, hlen, not_false_eq_true, if_true]
    constructor
    · intro h
      exact absurd h (by simp)
    · intro h
      exact absurd (congrArg List.length h) hlen

lemma hexDigit_range (n : Nat) (h : n < 16) :
    (48 ≤ hexDigit n ∧ hexDigit n ≤ 57) ∨ (97 ≤ hexDigit n ∧ hexDigit n ≤ 102) := by
  unfold hexDigit
  split <;> omega

lemma hexStrGo_range (fuel : Nat) : ∀ n c, c ∈ hexStrGo fuel n →
    (48 ≤ c ∧ c ≤ 57) ∨ (97 ≤ c ∧ c ≤ 102) := by
  induction fuel with
  | zero => intro n c hc; simp [hexStrGo] at hc
  | succ f ih =>
    intro n c hc
    simp only [hexStrGo] at hc
    split at hc
    · simp only [List.mem_singleton] at hc
      subst hc
      exact hexDigit_range n (by omega)
    · rcases List.mem_append.1 hc with h | h
      · exact ih _ _ h
      · simp only [List.mem_singleton] at h
        subst h
        exact hexDigit_range _ (Nat.mod_lt _ (by norm_num))

lemma bytesToHex_range (bs : Bytes) (c : Nat) (hc : c ∈ bytesToHex bs) :
    (48 ≤ c ∧ c ≤ 57) ∨ (97 ≤ c ∧ c ≤ 102) := by
  unfold bytesToHex at hc
  rcases List.mem_flatten.1 hc with ⟨l, hl, hcl⟩
  rcases List.mem_map.1 hl with ⟨b, _, rfl⟩
  unfold byteToHex at hcl
  rcases List.mem_append.1 hcl with h | h
  · have := List.eq_of_mem_replicate h
    omega
  · exact hexStrGo_range _ _ _ h

lemma expectedSig_no_upper (d : Bytes) (c : Nat)
    (hc : c ∈ jstr "sha256=" ++ bytesToHex d) : ¬(65 ≤ c ∧ c ≤ 90) := by
  rcases List.mem_append.1 hc with h | h
  · revert h
    have : ∀ x ∈ jstr "sha256=", ¬(65 ≤ x ∧ x ≤ 90) := by decide
    exact this c
  · rcases bytesToHex_range d c h with h' | h' <;> omega

lemma handler_eq_afterAuth (H : Host) (env : Env) (up : Upstream) (req : Req)
    (hm : req.method = jstr "POST")
    (hct : hasSub (jsToLower (req.contentType.getD [])) (jstr "application/json") = true)
    (hauth : authPasses H env req = true) :
    handler H env up req = handlerAfterAuth H up req
      (if secretConfigured env then [.methodCheck, .ctypeCheck, .authCheck]
       else [.methodCheck, .ctypeCheck]) := by
  cases hsec : secretConfigured env with
  | false => simp [handler, hm, hct, hsec]
  | true =>
    have hsc : safeCompare (req.xSignature.getD [])
        (jstr "sha256=" ++ bytesToHex (H.hmac (env.secret.getD []) req.rawBody)) = true := by
      unfold authPasses at hauth
      rw [hsec] at hauth
      simpa using hauth
    simp [handler, hm, hct, hsec, hsc]

lemma handler_401 (H : Host) (env : Env) (up : Upstream) (req : Req)
    (hm : req.method = jstr "POST")
    (hct : hasSub (jsToLower (req.contentType.getD [])) (jstr "application/json") = true)
    (hsec : secretConfigured env = true)
    (hsc : safeCompare (req.xSignature.getD [])
      (jstr "sha256=" ++ bytesToHex (H.hmac (env.secret.getD []) req.rawBody)) = false) :
    handler H env up req =
      ⟨.resp 401 (jstr "Unauthorized"), [.methodCheck, .ctypeCheck, .authCheck], none⟩ := by
  simp [handler, hm, hct, hsec, hsc]

lemma afterAuth_parseValidate_mem (H : Host) (up : Upstream) (req : Req)
    (pre : List Stage) :
    Stage.parseValidate ∈ (handlerAfterAuth H up req pre).trace := by
  unfold handlerAfterAuth
  cases H.parse req.rawBody with
  | none => simp
  | some payload =>
    cases hv : firstMissingKey payload requiredKeys with
    | error e => cases e; simp [hv]
    | ok o =>
      cases o with
      | some k => simp [hv]
      | none =>
        simp only [hv]
        split <;> simp

lemma insert_res_const (H : Host) (up : Upstream) (row i row' i' : Json) :
    (insertIntoBigQuery H up row i).res = (insertIntoBigQuery H up row' i').res := by
  unfold insertIntoBigQuery
  cases up.credsError with
  | some m => rfl
  | none =>
    dsimp only
    split
    · split
      · cases up.sinkBody with
        | none => rfl
        | some body =>
          dsimp only
          cases jsDot body (jstr "insertErrors") with
          | error e => cases e; rfl
          | ok ie =>
            dsimp only
            split
            · cases ie <;> rfl
            · rfl
      · rfl
    · rfl

lemma insert_calls (H : Host) (up : Upstream) (row i : Json) :
    ((insertIntoBigQuery H up row i).tokenCalled = false ∧
     (insertIntoBigQuery H up row i).sinkCalled = false) ∨
    ((insertIntoBigQuery H up row i).tokenCalled = true ∧
     (insertIntoBigQuery H up row i).sinkCalled = false) ∨
    ((insertIntoBigQuery H up row i).tokenCalled = true ∧
     (insertIntoBigQuery H up row i).sinkCalled = true) := by
  unfold insertIntoBigQuery
  cases up.credsError with
  | some m => left; exact ⟨rfl, rfl⟩
  | none =>
    dsimp only
    split
    · split
      · cases up.sinkBody with
        | none => right; right; exact ⟨rfl, rfl⟩
        | some body =>
          dsimp only
          cases jsDot body (jstr "insertErrors") with
          | error e => cases e; right; right; exact ⟨rfl, rfl⟩
          | ok ie =>
            dsimp only
            split
            · cases ie
              · right; right; exact ⟨rfl, rfl⟩
              · right; right; exact ⟨rfl, rfl⟩
            · right; right; exact ⟨rfl, rfl⟩
      · right; right; exact ⟨rfl, rfl⟩
    · right; left; exact ⟨rfl, rfl⟩

lemma firstMissingKey_spec (fields : List (JsStr × Json)) :
    ∀ (ks : List JsStr) (k : JsStr), k ∈ ks →
    fields.any (fun p => p.1 == k) = false →
    (∀ k' ∈ ks, k' ≠ k → fields.any (fun p => p.1 == k') = true) →
    firstMissingKey (.obj fields) ks = .ok (some k) := by
  intro ks
  induction ks with
  | nil => intro k hk _ _; cases hk
  | cons k1 rest ih =>
    intro k hk hmiss hothers
    by_cases hik : k1 = k
    · subst hik
      simp [firstMissingKey, jsInOp, hmiss]
    · have h1 : fields.any (fun p => p.1 == k1) = true :=
        hothers k1 (List.mem_cons_self k1 rest) hik
      have hk' : k ∈ rest := by
        rcases List.mem_cons.1 hk with h | h
        · exact absurd h.symm hik
        · exact h
      simp only [firstMissingKey, jsInOp, h1]
      exact ih k hk' hmiss (fun k' hk2 hne => hothers k' (List.mem_cons_of_mem _ hk2) hne)

lemma insert_request (H : Host) (up : Upstream) (row i : Json)
    (hcreds : up.credsError = none) (htok : httpOk up.tokenStatus = true) :
    (insertIntoBigQuery H up row i).request = some ⟨row, i⟩ := by
  unfold insertIntoBigQuery
  rw [hcreds]
  simp only [htok, if_true]
  split
  · cases up.sinkBody with
    | none => rfl
    | some body =>
      dsimp only
      cases jsDot body (jstr "insertErrors") with
      | error e => cases e; rfl
      | ok ie =>
        dsimp only
        split
        · cases ie <;> rfl
        · rfl
  · rfl

lemma insert_ok_iff (H : Host) (up : Upstream) (row i : Json) (j : Json)
    (hcreds : up.credsError = none) (htok : httpOk up.tokenStatus = true)
    (hbody : up.sinkBody = some j) :
    (insertIntoBigQuery H up row i).res.ok =
      (httpOk up.sinkStatus && insertErrorsClear j) := by
  unfold insertIntoBigQuery insertErrorsClear
  rw [hcreds]
  simp only [htok, if_true, hbody]
  cases hss : httpOk up.sinkStatus with
  | false => simp
  | true =>
    simp only [Bool.true_and]
    cases hd : jsDot j (jstr "insertErrors") with
    | error e => cases e; rfl
    | ok ie =>
      cases hie : jsTruthy ie with
      | false => simp [hie]
      | true =>
        cases ie with
        | undefined => simp [jsTruthy] at hie
        | val j' => simp [hie]

/-- Claim C9: `safeCompare` is extensionally ordinary string equality —
the length check plus XOR-accumulation over the code units of `a` and `b`
returns `true` exactly when `a` and `b` are equal strings. -/
theorem safeCompare_eq_string_eq (a b : JsStr) : safeCompare a b = true ↔ a = b :=
  safeCompare_iff a b

/-- Claim C1: with a secret configured, the signature header built as
`sha256=` plus the lowercase hex of HMAC-SHA256(secret, raw body) passes
authentication — the handler proceeds past it into parse/validate — and
any other header value, including an absent header (read as the empty
string), is terminal: the handler answers 401 and executes no stage after
the auth check. -/
theorem hmac_auth_gate (H : Host) (env : Env) (up : Upstream) (req : Req) (s : JsStr)
    (hs : env.secret = some s) (hne : s.isEmpty = false)
    (hm : req.method = jstr "POST")
    (hct : hasSub (jsToLower (req.contentType.getD [])) (jstr "application/json") = true) :
    (req.xSignature.getD [] = jstr "sha256=" ++ bytesToHex (H.hmac s req.rawBody) →
      Stage.parseValidate ∈ (handler H env up req).trace) ∧
    (req.xSignature.getD [] ≠ jstr "sha256=" ++ bytesToHex (H.hmac s req.rawBody) →
      (handler H env up req).out = .resp 401 (jstr "Unauthorized") ∧
      (handler H env up req).trace = [.methodCheck, .ctypeCheck, .authCheck]) := by
  have hsec : secretConfigured env = true := by
    simp [secretConfigured, hs, hne]
  have hget : env.secret.getD [] = s := by rw [hs]; rfl
  constructor
  · intro hsig
    have hauth : authPasses H env req = true := by
      unfold authPasses
      rw [hsec] at *
      simp only [if_true, hget, hsig]
      exact (safeCompare_iff _ _).2 rfl
    rw [handler_eq_afterAuth H env up req hm hct hauth]
    exact afterAuth_parseValidate_mem _ _ _ _
  · intro hsig
    have hsc : safeCompare (req.xSignature.getD [])
        (jstr "sha256=" ++ bytesToHex (H.hmac (env.secret.getD []) req.rawBody)) = false := by
      rw [hget]
      cases h : safeCompare (req.xSignature.getD [])
          (jstr "sha256=" ++ bytesToHex (H.hmac s req.rawBody)) with
      | false => rfl
      | true => exact absurd ((safeCompare_iff _ _).1 h) hsig
    rw [handler_401 H env up req hm hct hsec hsc]
    exact ⟨rfl, rfl⟩

/-- Claim C10: the expected header is built from lowercase hex, so any
provided signature header containing an uppercase ASCII letter — in
particular the correct digest with one or more hex digits uppercased —
differs from it and is rejected with 401. -/
theorem uppercase_hex_sig_rejected (H : Host) (env : Env) (up : Upstream) (req : Req)
    (s : JsStr) (c : Nat)
    (hs : env.secret = some s) (hne : s.isEmpty = false)
    (hm : req.method = jstr "POST")
    (hct : hasSub (jsToLower (req.contentType.getD [])) (jstr "application/json") = true)
    (hc : c ∈ req.xSignature.getD []) (hlo : 65 ≤ c) (hhi : c ≤ 90) :
    (handler H env up req).out = .resp 401 (jstr "Unauthorized") := by
  have hsec : secretConfigured env = true := by
    simp [secretConfigured, hs, hne]
  have hget : env.secret.getD [] = s := by rw [hs]; rfl
  have hneq : req.xSignature.getD [] ≠
      jstr "sha256=" ++ bytesToHex (H.hmac s req.rawBody) := by
    intro h
    rw [h] at hc
    exact expectedSig_no_upper _ c hc ⟨hlo, hhi⟩
  have hsc : safeCompare (req.xSignature.getD [])
      (jstr "sha256=" ++ bytesToHex (H.hmac (env.secret.getD []) req.rawBody)) = false := by
    rw [hget]
    cases h : safeCompare (req.xSignature.getD [])
        (jstr "sha256=" ++ bytesToHex (H.hmac s req.rawBody)) with
    | false => rfl
    | true => exact absurd ((safeCompare_iff _ _).1 h) hneq
  rw [handler_401 H env up req hm hct hsec hsc]

/-- Witness for claim C1: under secret `k` and the digest byte `0xab`,
the header `sha256=ab` passes the auth stage (parse/validate runs) and
the absent header is answered 401. -/
theorem hmac_auth_gate_witness :
    Stage.parseValidate ∈ (handler hostHmacAb envSecretK upAllOk reqSigLower).trace ∧
    (handler hostHmacAb envSecretK upAllOk reqPlain).out =
      .resp 401 (jstr "Unauthorized") := by
  constructor
  · exact (hmac_auth_gate hostHmacAb envSecretK upAllOk reqSigLower (jstr "k")
      rfl (by decide) rfl (by decide)).1 (by decide)
  · exact ((hmac_auth_gate hostHmacAb envSecretK upAllOk reqPlain (jstr "k")
      rfl (by decide) rfl (by decide)).2 (by decide)).1

/-- Witness for claim C10: the header `sha256=AB` — the correct digest
`ab`, uppercased — is rejected with 401. -/
theorem uppercase_hex_sig_rejected_witness :
    (handler hostHmacAb envSecretK upAllOk reqSigUpper).out =
      .resp 401 (jstr "Unauthorized") :=
  uppercase_hex_sig_rejected hostHmacAb envSecretK upAllOk reqSigUpper (jstr "k") 65
    rfl (by decide) rfl (by decide) (by decide) (by decide) (by decide)

/-- Claim C5: a payload that parses to a JSON object missing exactly one
of the seven required keys makes the validation loop stop at that key and
report it as the missing field, and the handler answers 400 — key
presence is all that is checked, the present values are arbitrary. -/
theorem missing_required_key_400 (H : Host) (env : Env) (up : Upstream) (req : Req)
    (fields : List (JsStr × Json)) (k : JsStr)
    (hm : req.method = jstr "POST")
    (hct : hasSub (jsToLower (req.contentType.getD [])) (jstr "application/json") = true)
    (hauth : authPasses H env req = true)
    (hp : H.parse req.rawBody = some (.obj fields))
    (hk : k ∈ requiredKeys)
    (hmiss : fields.any (fun p => p.1 == k) = false)
    (hothers : ∀ k' ∈ requiredKeys, k' ≠ k → fields.any (fun p => p.1 == k') = true) :
    firstMissingKey (.obj fields) requiredKeys = .ok (some k) ∧
    (handler H env up req).out = .resp 400 (jstr "Bad Request") := by
  have hfm := firstMissingKey_spec fields requiredKeys k hk hmiss hothers
  refine ⟨hfm, ?_⟩
  rw [handler_eq_afterAuth H env up req hm hct hauth]
  unfold handlerAfterAuth
  simp [hp, hfm]

/-- Witness for claim C5: the payload missing `message` is reported with
that key and answered 400. -/
theorem missing_required_key_400_witness :
    firstMissingKey (.obj fieldsMissingMsg) requiredKeys = .ok (some (jstr "message")) ∧
    (handler hostMissingMsg envNoSecret upAllOk reqPlain).out =
      .resp 400 (jstr "Bad Request") :=
  missing_required_key_400 hostMissingMsg envNoSecret upAllOk reqPlain
    fieldsMissingMsg (jstr "message") rfl (by decide) (by decide) rfl
    (by decide) (by decide) (by decide)

/-- Claim C2 (amended): a validated request that reaches the sink sends
the parsed payload as the row and, as `insertId`, the `extra.request_id`
value verbatim whenever that value is truthy — any non-empty string, but
equally any other truthy JSON value such as a nonzero number; whenever
`extra.request_id` is absent or falsy (`undefined`, `null`, `false`, `0`,
the empty string) the key is the lowercase SHA-256 hex of the exact raw
body bytes. -/
theorem dedup_key_selection (H : Host) (env : Env) (up : Upstream) (req : Req)
    (payload : Json)
    (hm : req.method = jstr "POST")
    (hct : hasSub (jsToLower (req.contentType.getD [])) (jstr "application/json") = true)
    (hauth : authPasses H env req = true)
    (hp : H.parse req.rawBody = some payload)
    (hv : firstMissingKey payload requiredKeys = .ok none)
    (hcreds : up.credsError = none) (htok : httpOk up.tokenStatus = true) :
    (handler H env up req).sinkRequest =
      some ⟨payload, dedupKey H payload req.rawBody⟩ ∧
    (∀ j, requestIdVal payload = .val j → jsTruthy (.val j) = true →
      dedupKey H payload req.rawBody = j) ∧
    (jsTruthy (requestIdVal payload) = false →
      dedupKey H payload req.rawBody = .str (bytesToHex (H.sha256 req.rawBody))) := by
  refine ⟨?_, ?_, ?_⟩
  · rw [handler_eq_afterAuth H env up req hm hct hauth]
    unfold handlerAfterAuth
    simp only [hp, hv]
    have hreq := insert_request H up payload (dedupKey H payload req.rawBody) hcreds htok
    split <;> simpa using hreq
  · intro j hj htr
    unfold dedupKey
    rw [hj]
    simp [htr]
  · intro hfalse
    unfold dedupKey
    cases hr : requestIdVal payload with
    | undefined => rfl
    | val j =>
      rw [hr] at hfalse
      simp [hfalse]

/-- Witness for claim C2 (amended): with an empty `extra`, the key sent
to the sink is the SHA-256 hex of the raw body. -/
theorem dedup_key_selection_witness :
    (handler hostNoId envNoSecret upAllOk reqPlain).sinkRequest =
      some ⟨payloadNoId, .str (bytesToHex (hostNoId.sha256 reqPlain.rawBody))⟩ := by
  have h := dedup_key_selection hostNoId envNoSecret upAllOk reqPlain payloadNoId
    rfl (by decide) (by decide) rfl rfl rfl (by decide)
  have h1 := h.1
  rw [h.2.2 rfl] at h1
  exact h1

/-- Claim C2 fails as stated: with `extra.request_id` present as the
number `1` — a value that exists but is not a non-empty string — the key
passed to the sink is the number `1` verbatim, not the SHA-256 hex digest
of the raw body that the claim requires for every non-string value. -/
theorem dedup_key_nonstring_counterexample :
    (handler hostNumId envNoSecret upAllOk reqPlain).sinkRequest =
      some ⟨payloadNumId, .num 1⟩ ∧
    Json.num 1 ≠ Json.str (bytesToHex (hostNumId.sha256 reqPlain.rawBody)) := by
  constructor
  · rfl
  · intro h
    exact Json.noConfusion h

/-- Claim C4 (amended): once credentials resolve and the token exchange
succeeds, the insert is accepted exactly when the sink answered 2xx and
the body's `insertErrors` field reads as non-truthy — absent or falsy; a
present empty array is truthy in JavaScript and is rejected.  A request
reaching the forward step is answered 200 in exactly the accepted case
and 502 otherwise. -/
theorem insert_accept_iff (H : Host) (env : Env) (up : Upstream) (req : Req)
    (payload j : Json)
    (hm : req.method = jstr "POST")
    (hct : hasSub (jsToLower (req.contentType.getD [])) (jstr "application/json") = true)
    (hauth : authPasses H env req = true)
    (hp : H.parse req.rawBody = some payload)
    (hv : firstMissingKey payload requiredKeys = .ok none)
    (hcreds : up.credsError = none) (htok : httpOk up.tokenStatus = true)
    (hbody : up.sinkBody = some j) :
    ((insertIntoBigQuery H up payload (dedupKey H payload req.rawBody)).res.ok =
      (httpOk up.sinkStatus && insertErrorsClear j)) ∧
    ((httpOk up.sinkStatus && insertErrorsClear j) = true →
      (handler H env up req).out = .resp 200 (jstr "OK")) ∧
    ((httpOk up.sinkStatus && insertErrorsClear j) = false →
      statusOf (handler H env up req).out = some 502) := by
  have hok := insert_ok_iff H up payload (dedupKey H payload req.rawBody) j hcreds htok hbody
  refine ⟨hok, ?_, ?_⟩
  · intro hacc
    rw [handler_eq_afterAuth H env up req hm hct hauth]
    unfold handlerAfterAuth
    simp only [hp, hv]
    rw [hacc] at hok
    simp [hok]
  · intro hrej
    rw [handler_eq_afterAuth H env up req hm hct hauth]
    unfold handlerAfterAuth
    simp only [hp, hv]
    rw [hrej] at hok
    simp [hok, statusOf]

/-- Witness for claim C4 (amended): all collaborators succeeding with a
sink body free of `insertErrors` yields 200. -/
theorem insert_accept_iff_witness :
    (handler hostNoId envNoSecret upAllOk reqPlain).out = .resp 200 (jstr "OK") :=
  (insert_accept_iff hostNoId envNoSecret upAllOk reqPlain payloadNoId (.obj [])
    rfl (by decide) (by decide) rfl rfl rfl (by decide) rfl).2.1 (by decide)

/-- Claim C4 fails as stated: a 2xx sink response whose `insertErrors`
field is present but an empty array is rejected — the empty array is a
truthy JavaScript value, so the `data.insertErrors` test fires — and the
handler answers 502 where the claim requires 200. -/
theorem empty_insertErrors_rejected_counterexample :
    upEmptyIE.sinkStatus = 200 ∧
    upEmptyIE.sinkBody = some (.obj [(jstr "insertErrors", Json.arr [])]) ∧
    (handler hostNoId envNoSecret upEmptyIE reqPlain).out =
      .resp 502 (jstr "Upstream Error") := by
  exact ⟨rfl, rfl, rfl⟩

lemma handler_branches (H : Host) (env : Env) (up : Upstream) (req : Req) :
    handler H env up req =
      ⟨.resp 405 (jstr "Method Not Allowed"), [Stage.methodCheck], none⟩ ∨
    handler H env up req =
      ⟨.resp 415 (jstr "Unsupported Media Type"),
        [Stage.methodCheck, Stage.ctypeCheck], none⟩ ∨
    handler H env up req =
      ⟨.resp 401 (jstr "Unauthorized"),
        [Stage.methodCheck, Stage.ctypeCheck, Stage.authCheck], none⟩ ∨
    handler H env up req =
      handlerAfterAuth H up req [Stage.methodCheck, Stage.ctypeCheck] ∨
    handler H env up req =
      handlerAfterAuth H up req [Stage.methodCheck, Stage.ctypeCheck, Stage.authCheck] := by
  unfold handler
  split
  · exact Or.inl rfl
  · split
    · exact Or.inr (Or.inl rfl)
    · split
      · dsimp only
        split
        · exact Or.inr (Or.inr (Or.inl rfl))
        · exact Or.inr (Or.inr (Or.inr (Or.inr rfl)))
      · exact Or.inr (Or.inr (Or.inr (Or.inl rfl)))

lemma afterAuth_trace (H : Host) (up : Upstream) (req : Req) (pre : List Stage) :
    ∃ suf, (handlerAfterAuth H up req pre).trace = pre ++ suf ∧
      ([Stage.parseValidate] = suf ∨
       [Stage.parseValidate, Stage.dedupKeyStage] = suf ∨
       [Stage.parseValidate, Stage.dedupKeyStage, Stage.tokenCall] = suf ∨
       [Stage.parseValidate, Stage.dedupKeyStage, Stage.tokenCall,
        Stage.sinkCall] = suf) := by
  unfold handlerAfterAuth
  cases H.parse req.rawBody with
  | none => exact ⟨[Stage.parseValidate], by simp, Or.inl rfl⟩
  | some payload =>
    cases hv : firstMissingKey payload requiredKeys with
    | error e => cases e; exact ⟨[Stage.parseValidate], by simp [hv], Or.inl rfl⟩
    | ok o =>
      cases o with
      | some k => exact ⟨[Stage.parseValidate], by simp [hv], Or.inl rfl⟩
      | none =>
        simp only [hv]
        rcases insert_calls H up payload (dedupKey H payload req.rawBody) with
          ⟨ht, hs⟩ | ⟨ht, hs⟩ | ⟨ht, hs⟩
        · refine ⟨[Stage.parseValidate, Stage.dedupKeyStage], ?_,
            Or.inr (Or.inl rfl)⟩
          split <;> simp [ht, hs]
        · refine ⟨[Stage.parseValidate, Stage.dedupKeyStage, Stage.tokenCall], ?_,
            Or.inr (Or.inr (Or.inl rfl))⟩
          split <;> simp [ht, hs]
        · refine ⟨[Stage.parseValidate, Stage.dedupKeyStage, Stage.tokenCall,
            Stage.sinkCall], ?_, Or.inr (Or.inr (Or.inr rfl))⟩
          split <;> simp [ht, hs]

lemma afterAuth_token_fail (H : Host) (up : Upstream) (req : Req) (pre : List Stage)
    (hcreds : up.credsError = none) (htok : httpOk up.tokenStatus = false)
    (hpres : Stage.sinkCall ∉ pre) (hpred : Stage.dedupKeyStage ∉ pre) :
    Stage.sinkCall ∉ (handlerAfterAuth H up req pre).trace ∧
    (Stage.dedupKeyStage ∈ (handlerAfterAuth H up req pre).trace →
      (handlerAfterAuth H up req pre).out =
        .resp 502 (jstr "Upstream Error: token exchange failed")) := by
  unfold handlerAfterAuth
  cases H.parse req.rawBody with
  | none =>
    constructor
    · simpa using hpres
    · intro h
      simp [hpred] at h
  | some payload =>
    cases hv : firstMissingKey payload requiredKeys with
    | error e =>
      cases e
      constructor
      · simpa [hv] using hpres
      · intro h
        simp [hv, hpred] at h
    | ok o =>
      cases o with
      | some k =>
        constructor
        · simpa [hv] using hpres
        · intro h
          simp [hv, hpred] at h
      | none =>
        have hcall : insertIntoBigQuery H up payload (dedupKey H payload req.rawBody) =
            ⟨⟨false, some (jstr "token exchange failed")⟩, true, false, none⟩ := by
          unfold insertIntoBigQuery
          rw [hcreds]
          simp [htok]
        simp only [hv, hcall]
        constructor
        · simpa using hpres
        · intro _
          rw [if_neg (by simp : ¬ false = true)]
          dsimp only
          decide

lemma afterAuth_out_cases (H : Host) (up : Upstream) (req : Req) (pre : List Stage) :
    (handlerAfterAuth H up req pre).out = .resp 400 (jstr "Bad Request") ∨
    (handlerAfterAuth H up req pre).out = .thrown (jstr "TypeError") ∨
    (handlerAfterAuth H up req pre).out = .resp 200 (jstr "OK") ∨
    (handlerAfterAuth H up req pre).out =
      .resp 502 (upstreamMsg (insertIntoBigQuery H up .null .null).res) := by
  unfold handlerAfterAuth
  cases H.parse req.rawBody with
  | none => exact Or.inl rfl
  | some payload =>
    cases hv : firstMissingKey payload requiredKeys with
    | error e =>
      cases e
      right; left
      simp [hv]
    | ok o =>
      cases o with
      | some k =>
        left
        simp [hv]
      | none =>
        simp only [hv]
        cases hok : (insertIntoBigQuery H up payload
            (dedupKey H payload req.rawBody)).res.ok with
        | true =>
          right; right; left
          simp [hok]
        | false =>
          right; right; right
          simp only [hok, Bool.false_eq_true, if_false]
          rw [insert_res_const H up payload (dedupKey H payload req.rawBody) .null .null]

lemma handler_out_cases (H : Host) (env : Env) (up : Upstream) (req : Req) :
    (handler H env up req).out = .resp 405 (jstr "Method Not Allowed") ∨
    (handler H env up req).out = .resp 415 (jstr "Unsupported Media Type") ∨
    (handler H env up req).out = .resp 401 (jstr "Unauthorized") ∨
    (handler H env up req).out = .resp 400 (jstr "Bad Request") ∨
    (handler H env up req).out = .thrown (jstr "TypeError") ∨
    (handler H env up req).out = .resp 200 (jstr "OK") ∨
    (handler H env up req).out =
      .resp 502 (upstreamMsg (insertIntoBigQuery H up .null .null).res) := by
  rcases handler_branches H env up req with h | h | h | h | h <;> rw [h]
  · exact Or.inl rfl
  · exact Or.inr (Or.inl rfl)
  · exact Or.inr (Or.inr (Or.inl rfl))
  · rcases afterAuth_out_cases H up req [Stage.methodCheck, Stage.ctypeCheck] with
      h2 | h2 | h2 | h2
    · exact Or.inr (Or.inr (Or.inr (Or.inl h2)))
    · exact Or.inr (Or.inr (Or.inr (Or.inr (Or.inl h2))))
    · exact Or.inr (Or.inr (Or.inr (Or.inr (Or.inr (Or.inl h2)))))
    · exact Or.inr (Or.inr (Or.inr (Or.inr (Or.inr (Or.inr h2)))))
  · rcases afterAuth_out_cases H up req
      [Stage.methodCheck, Stage.ctypeCheck, Stage.authCheck] with h2 | h2 | h2 | h2
    · exact Or.inr (Or.inr (Or.inr (Or.inl h2)))
    · exact Or.inr (Or.inr (Or.inr (Or.inr (Or.inl h2))))
    · exact Or.inr (Or.inr (Or.inr (Or.inr (Or.inr (Or.inl h2)))))
    · exact Or.inr (Or.inr (Or.inr (Or.inr (Or.inr (Or.inr h2)))))

/-- Claim C7: the pipeline is strictly sequential — every run's stage
trace is a subsequence of the canonical order (the auth stage being
optional) — a non-`application/json` content type is terminal with 415
before any parsing, and with credentials resolving but the token exchange
failing, the sink is never contacted and any run that reached the forward
step is answered 502. -/
theorem pipeline_sequential (H : Host) (env : Env) (up : Upstream) (req : Req) :
    List.Sublist (handler H env up req).trace
      [Stage.methodCheck, Stage.ctypeCheck, Stage.authCheck, Stage.parseValidate,
       Stage.dedupKeyStage, Stage.tokenCall, Stage.sinkCall] ∧
    (req.method = jstr "POST" →
      hasSub (jsToLower (req.contentType.getD [])) (jstr "application/json") = false →
      (handler H env up req).out = .resp 415 (jstr "Unsupported Media Type") ∧
      Stage.parseValidate ∉ (handler H env up req).trace) ∧
    (up.credsError = none → httpOk up.tokenStatus = false →
      Stage.sinkCall ∉ (handler H env up req).trace ∧
      (Stage.dedupKeyStage ∈ (handler H env up req).trace →
        (handler H env up req).out =
          .resp 502 (jstr "Upstream Error: token exchange failed"))) := by
  refine ⟨?_, ?_, ?_⟩
  · rcases handler_branches H env up req with h | h | h | h | h <;> rw [h]
    · decide
    · decide
    · decide
    · rcases afterAuth_trace H up req [Stage.methodCheck, Stage.ctypeCheck] with
        ⟨suf, htr, hsuf⟩
      rw [htr]
      rcases hsuf with rfl | rfl | rfl | rfl <;> decide
    · rcases afterAuth_trace H up req
        [Stage.methodCheck, Stage.ctypeCheck, Stage.authCheck] with ⟨suf, htr, hsuf⟩
      rw [htr]
      rcases hsuf with rfl | rfl | rfl | rfl <;> decide
  · intro hm hct
    constructor
    · simp [handler, hm, hct]
    · simp [handler, hm, hct]
  · intro hcreds htok
    rcases handler_branches H env up req with h | h | h | h | h <;> rw [h]
    · exact ⟨by decide, fun hd => absurd hd (by decide)⟩
    · exact ⟨by decide, fun hd => absurd hd (by decide)⟩
    · exact ⟨by decide, fun hd => absurd hd (by decide)⟩
    · exact afterAuth_token_fail H up req [Stage.methodCheck, Stage.ctypeCheck]
        hcreds htok (by decide) (by decide)
    · exact afterAuth_token_fail H up req
        [Stage.methodCheck, Stage.ctypeCheck, Stage.authCheck]
        hcreds htok (by decide) (by decide)

/-- Witness for claim C7: a `text/plain` POST is answered 415, and with a
failing token exchange the sink is never contacted. -/
theorem pipeline_sequential_witness :
    (handler hostNoId envNoSecret upAllOk reqTextPlain).out =
      .resp 415 (jstr "Unsupported Media Type") ∧
    Stage.sinkCall ∉ (handler hostNoId envNoSecret upTokenFail reqPlain).trace :=
  ⟨((pipeline_sequential hostNoId envNoSecret upAllOk reqTextPlain).2.1 rfl
      (by decide)).1,
   ((pipeline_sequential hostNoId envNoSecret upTokenFail reqPlain).2.2 rfl
      (by decide)).1⟩

/-- Claim C8: error bodies never carry the raw payload — for two requests
that differ only in their body bytes, equal response statuses force
identical response bodies (every 4xx body is one of four fixed constant
strings, and the 502 body is a function of the collaborators' responses
alone, never of the request body). -/
theorem error_bodies_payload_independent (H : Host) (env : Env) (up : Upstream)
    (req1 req2 : Req)
    (_hm : req1.method = req2.method) (_hc : req1.contentType = req2.contentType)
    (_hx : req1.xSignature = req2.xSignature) :
    (statusOf (handler H env up req1).out = statusOf (handler H env up req2).out →
      bodyOf (handler H env up req1).out = bodyOf (handler H env up req2).out) ∧
    (∀ s b, (handler H env up req1).out = .resp s b → 400 ≤ s → s ≤ 499 →
      b ∈ [jstr "Method Not Allowed", jstr "Unsupported Media Type",
           jstr "Unauthorized", jstr "Bad Request"]) := by
  constructor
  · intro hst
    rcases handler_out_cases H env up req1 with h1 | h1 | h1 | h1 | h1 | h1 | h1 <;>
      rcases handler_out_cases H env up req2 with h2 | h2 | h2 | h2 | h2 | h2 | h2 <;>
      rw [h1, h2] at hst ⊢ <;>
      simp [statusOf, bodyOf] at hst ⊢
  · intro s b hout h4 h5
    rcases handler_out_cases H env up req1 with h1 | h1 | h1 | h1 | h1 | h1 | h1 <;>
      rw [h1] at hout
    · injection hout with hs hb
      subst hs; subst hb
      simp
    · injection hout with hs hb
      subst hs; subst hb
      simp
    · injection hout with hs hb
      subst hs; subst hb
      simp
    · injection hout with hs hb
      subst hs; subst hb
      simp
    · exact HOut.noConfusion hout
    · injection hout with hs hb
      subst hs
      omega
    · injection hout with hs hb
      subst hs
      omega

/-- Witness for claim C8: two all-success requests differing only in body
bytes get identical response bodies. -/
theorem error_bodies_payload_independent_witness :
    bodyOf (handler hostNoId envNoSecret upAllOk reqPlain).out =
      bodyOf (handler hostNoId envNoSecret upAllOk reqPlain2).out :=
  (error_bodies_payload_independent hostNoId envNoSecret upAllOk reqPlain reqPlain2
    rfl rfl rfl).1 rfl

/-- Claim C6 names the intended behaviour, but the code violates it: a
body parsing to a JSON scalar reaches the required-key loop, whose `in`
operator throws a TypeError on non-objects, so the handler throws instead
of returning a typed 400 — evaluated here on the body `5`. -/
theorem scalar_payload_throws :
    (handler hostScalar envNoSecret upAllOk reqScalar).out =
      .thrown (jstr "TypeError") := by
  rfl

end McpLog
